import Mathlib

/-!
# Verification of the HydroChrono hydrodynamic force engine

Shallow embedding of the force-computation core of `hydro_forces.cpp` /
`hydro_forces.h` (class `TestHydro` and its helpers `ComponentFunc` and
`ForceFunc6d`), with machine doubles modelled as exact rationals and the
opaque collaborators (Chrono bodies, the H5 data provider, the wave model)
modelled as read-only query functions supplied in an environment record.

Conventions:
* a 6N force vector is a `List ℚ` in body-major, DOF-minor order;
* the velocity/time history lists are newest-first, as in the source;
* fallible member functions return `Except String` carrying the updated
  coordinator state, mirroring C++ exceptions that abort the call without
  committing further state changes;
* `hydroCalls`, `radCalls`, `waveCalls` are ghost counters incremented at
  exactly the program points where `CoordinateFuncForBody` invokes the three
  force computations, to make "does not re-invoke" provable.
-/

/-- `TestHydro::RadiationConvolutionMode` (hydro_forces.h:234). -/
inductive RadiationConvolutionMode
  | Baseline
  | TaperedDirect
deriving DecidableEq, Repr

/-- `TestHydro::TaperedDirectOptions` (hydro_forces.h:244). -/
structure TaperedDirectOptions where
  smoothing : String := "sg"
  windowLength : ℤ := 5
  rirfEndTime : ℚ := -1
  taperStartPercent : ℚ := 8/10
  taperEndPercent : ℚ := 1
  taperFinalAmplitude : ℚ := 0
  exportPlotCsv : Bool := false
deriving DecidableEq, Repr

/-- Read-only inputs of one coordinator call: the host solver's body
queries (`GetPos`, `GetRot().GetCardanAnglesXYZ()`, `GetPosDt`,
`GetAngVelParent`, `GetChTime`, gravity), the H5 data provider's tables,
and the constructor-computed immutable tables (`equilibrium_`,
`cb_minus_cg_`, `rirf_time_vector`).  `gravLength` is the host system's
`GetGravitationalAcceleration().Length()` (a Chrono library computation,
supplied as data so the embedding stays in ℚ). -/
structure HydroEnv where
  numBodies : ℕ
  chTime : ℚ
  bodyPos : ℕ → List ℚ
  bodyRpy : ℕ → List ℚ
  bodyLinVel : ℕ → List ℚ
  bodyAngVel : ℕ → List ℚ
  gravity : List ℚ
  gravLength : ℚ
  rho : ℚ
  linMatrix : ℕ → ℕ → ℕ → ℚ
  dispVol : ℕ → ℚ
  equilibrium : List ℚ
  cbMinusCg : List ℚ
  rirfTimeVector : List ℚ
  rirfSteps : ℕ
  rirfVal : ℕ → ℕ → ℕ → ℕ → ℚ
  waveForce : ℚ → List ℚ

/-- The mutable members of `TestHydro` (hydro_forces.h:285-344) touched by
the force-computation path, plus ghost invocation counters. -/
structure HydroState where
  timeHistory : List ℚ
  velocityHistory : List (List (List ℚ))
  forceHydrostatic : List ℚ
  forceRadiationDamping : List ℚ
  forceWaves : List ℚ
  totalForce : List ℚ
  prevTime : ℚ
  convolutionMode : RadiationConvolutionMode
  rirfProcessedReady : Bool
  rirfProcessed : Option (ℕ → ℕ → ℕ → ℚ)
  taperedOpts : TaperedDirectOptions
  hydroCalls : ℕ
  radCalls : ℕ
  waveCalls : ℕ

/-- The trapezoid width vector computed in the `TestHydro` constructor
(hydro_forces.cpp:174-183): width at `ii` is half the following interval
(when `ii` has a successor) plus half the preceding interval (when it has
a predecessor). -/
def mkRirfWidthVector (t : List ℚ) : List ℚ :=
  (List.range t.length).map (fun ii =>
    (if ii + 1 < t.length then |t.getD (ii + 1) 0 - t.getD ii 0| / 2 else 0) +
    (if 0 < ii then |t.getD ii 0 - t.getD (ii - 1) 0| / 2 else 0))

/-- The maximum RIRF time `rirf_time_vector[rirf_last_index]` guarded by
`rirf_last_index >= 0` (hydro_forces.cpp:319-320). -/
def maxRIRFTime (env : HydroEnv) : ℚ :=
  if 1 ≤ env.rirfTimeVector.length then
    env.rirfTimeVector.getD (env.rirfTimeVector.length - 1) 0
  else 0

/-- The body's current 6-DOF velocity snapshot: world linear velocity
components followed by parent-frame angular velocity components
(hydro_forces.cpp:335-340). -/
def currentVel6 (env : HydroEnv) (b : ℕ) : List ℚ :=
  [(env.bodyLinVel b).getD 0 0, (env.bodyLinVel b).getD 1 0, (env.bodyLinVel b).getD 2 0,
   (env.bodyAngVel b).getD 0 0, (env.bodyAngVel b).getD 1 0, (env.bodyAngVel b).getD 2 0]

/-- Pushing the current time and per-body velocities onto the fronts of the
history lists (hydro_forces.cpp:327-342). -/
def insertVels (env : HydroEnv) (st : HydroState) : List (List (List ℚ)) :=
  (List.range env.numBodies).map (fun b => currentVel6 env b :: st.velocityHistory.getD b [])

/-- One-step-per-fuel-unit rendering of the pruning `while` loop
(hydro_forces.cpp:345-355): while more than one sample remains and the
second-oldest time is below `minT`, drop the oldest time and, per body, the
oldest velocity snapshot.  The fuel is structural so the definition reduces
in the kernel; `pruneHistory` supplies enough fuel for the loop to reach
its exit condition. -/
def pruneHistoryAux : ℕ → ℚ → List ℚ → List (List (List ℚ)) → List ℚ × List (List (List ℚ))
  | 0, _, times, vels => (times, vels)
  | fuel + 1, minT, times, vels =>
    if 1 < times.length ∧ times.getD (times.length - 2) 0 < minT then
      pruneHistoryAux fuel minT times.dropLast (vels.map List.dropLast)
    else (times, vels)

/-- The pruning loop of `ComputeForceRadiationDampingConv`
(hydro_forces.cpp:344-355). -/
def pruneHistory (minT : ℚ) (times : List ℚ) (vels : List (List (List ℚ))) :
    List ℚ × List (List (List ℚ)) :=
  pruneHistoryAux times.length minT times vels

/-- Fueled rendering of the cursor-advance `while` loop
(hydro_forces.cpp:368-370): advance `i` while `times[i+1]` exists and is
still greater than the query time. -/
def advanceCursorAux : ℕ → List ℚ → ℚ → ℕ → ℕ
  | 0, _, _, i => i
  | fuel + 1, times, q, i =>
    if i + 1 < times.length ∧ q < times.getD (i + 1) 0 then
      advanceCursorAux fuel times q (i + 1)
    else i

/-- The monotone history cursor advance of the convolution loop. -/
def advanceCursor (times : List ℚ) (q : ℚ) (i : ℕ) : ℕ :=
  advanceCursorAux times.length times q i

/-- Linear interpolation of a 6-DOF velocity inside the bracketing history
pair (hydro_forces.cpp:387-420): exact endpoint match returns the stored
sample, a strictly interior query blends with weight
`(newer - q) / (newer - older)` on the older sample, anything else raises
the defensive bracketing error. -/
def interpVel (q newerT olderT : ℚ) (newerV olderV : List ℚ) : Except String (List ℚ) :=
  if q = olderT then .ok olderV
  else if q = newerT then .ok newerV
  else if olderT < q ∧ q < newerT then
    .ok (List.zipWith
      (fun a b =>
        (if newerT - olderT ≠ 0 then (newerT - q) / (newerT - olderT) else 0) * a +
        (1 - (if newerT - olderT ≠ 0 then (newerT - q) / (newerT - olderT) else 0)) * b)
      olderV newerV)
  else .error "Radiation convolution: interpolation error; rirf_query_time not bracketed by adjacent history."

/-- The per-body inner work of one RIRF step (hydro_forces.cpp:379-435):
skip a body whose velocity history is too short, interpolate its 6-DOF
velocity at the query time, then for each column DOF with a nonzero
contribution scale accumulate `kern row col step * vel * width` into every
row of the damping force. -/
def convBody (kern : ℕ → ℕ → ℕ → ℚ) (numBodies : ℕ) (widths : List ℚ)
    (velHist : List (List (List ℚ))) (q newerT olderT : ℚ) (step hi : ℕ)
    (frd : List ℚ) (bodyIndex : ℕ) : Except String (List ℚ) :=
  let vhb := velHist.getD bodyIndex []
  if vhb.length ≤ hi then .ok frd
  else do
    let v ← interpVel q newerT olderT (vhb.getD hi []) (vhb.getD (hi + 1) [])
    let stepWidth := widths.getD step 0
    let totalDofs := 6 * numBodies
    .ok ((List.range 6).foldl
      (fun acc dof =>
        let col := bodyIndex * 6 + dof
        let scale := v.getD dof 0 * stepWidth
        if scale = 0 then acc
        else acc.mapIdx (fun row val =>
          if row < totalDofs then val + kern row col step * scale else val))
      frd)

/-- One iteration of the outer RIRF-step loop (hydro_forces.cpp:364-436):
compute the query time, advance the cursor, stop the whole loop (`none`)
when no older history brackets the query, otherwise fold the per-body
convolution over all bodies. -/
def convStep (kern : ℕ → ℕ → ℕ → ℚ) (numBodies : ℕ) (widths : List ℚ)
    (times : List ℚ) (velHist : List (List (List ℚ))) (simTime : ℚ)
    (rirfTimes : List ℚ) (step hi : ℕ) (frd : List ℚ) :
    Except String (Option (ℕ × List ℚ)) :=
  let q := simTime - rirfTimes.getD step 0
  let hi2 := advanceCursor times q hi
  if times.length ≤ hi2 + 1 then .ok none
  else do
    let newerT := times.getD hi2 0
    let olderT := times.getD (hi2 + 1) 0
    let frd2 ← (List.range numBodies).foldlM
      (convBody kern numBodies widths velHist q newerT olderT step hi2) frd
    .ok (some (hi2, frd2))

/-- The outer RIRF-step loop, folded over the remaining step indices with
the cursor and the damping accumulator threaded through; a `none` from
`convStep` is the `break` at the edge of the available history. -/
def convLoop (kern : ℕ → ℕ → ℕ → ℚ) (numBodies : ℕ) (widths : List ℚ)
    (times : List ℚ) (velHist : List (List (List ℚ))) (simTime : ℚ)
    (rirfTimes : List ℚ) : List ℕ → ℕ → List ℚ → Except String (List ℚ)
  | [], _, frd => .ok frd
  | step :: rest, hi, frd => do
    match ← convStep kern numBodies widths times velHist simTime rirfTimes step hi frd with
    | none => .ok frd
    | some (hi2, frd2) =>
      convLoop kern numBodies widths times velHist simTime rirfTimes rest hi2 frd2

/-- `TestHydro::ComputeForceRadiationDampingConv` (hydro_forces.cpp:311-439)
parameterized over the RIRF kernel lookup used by the accumulation: reject
a duplicate call at the front-of-history time, push the current time and
velocities, prune history older than the RIRF support, return the previous
damping vector unchanged on a cold start, otherwise run the convolution
loop.  The returned force vector is the `forceRadiationDamping` field of
the returned state. -/
def convCore (kern : ℕ → ℕ → ℕ → ℚ) (env : HydroEnv) (st : HydroState) :
    Except String HydroState :=
  let simulationTime := env.chTime
  let historyMinTime := simulationTime - maxRIRFTime env
  if st.timeHistory ≠ [] ∧ simulationTime = st.timeHistory.headD 0 then
    .error "Tried to compute the radiation damping convolution twice within the same time step!"
  else
    let pruned := pruneHistory historyMinTime (simulationTime :: st.timeHistory) (insertVels env st)
    if pruned.1.length ≤ 1 then
      .ok { st with timeHistory := pruned.1, velocityHistory := pruned.2 }
    else do
      let frd ← convLoop kern env.numBodies (mkRirfWidthVector env.rirfTimeVector)
        pruned.1 pruned.2 simulationTime env.rirfTimeVector
        (List.range env.rirfSteps) 0 st.forceRadiationDamping
      .ok { st with timeHistory := pruned.1, velocityHistory := pruned.2,
                    forceRadiationDamping := frd }

/-- `TestHydro::GetRIRFval`'s in-range delegation (hydro_forces.cpp:447-451):
`row` is split into a body index and a row DOF; the column index is passed
through whole. -/
def baselineKern (env : HydroEnv) : ℕ → ℕ → ℕ → ℚ :=
  fun row col step => env.rirfVal (row / 6) (row % 6) col step

/-- `TestHydro::GetRIRFval` (hydro_forces.cpp:441-452) with its bounds check. -/
def getRIRFval (env : HydroEnv) (row col st : ℤ) : Except String ℚ :=
  if row < 0 ∨ (6 * env.numBodies : ℤ) ≤ row ∨ col < 0 ∨ (6 * env.numBodies : ℤ) ≤ col ∨
      st < 0 ∨ (env.rirfSteps : ℤ) ≤ st then
    .error "rirfval index out of range in TestHydro"
  else .ok (env.rirfVal (row / 6).toNat (row % 6).toNat col.toNat st.toNat)

/-- `TestHydro::ComputeForceRadiationDampingConv` as implemented in
hydro_forces.cpp:311-439 (the raw RIRF tensor is read through
`GetRIRFval`). -/
def computeForceRadiationDampingConv (env : HydroEnv) (st : HydroState) :
    Except String HydroState :=
  convCore (baselineKern env) env st

/-- In-place accumulation of a short vector `c` into `fh` starting at
offset `off`: the `body_force_hydrostatic[i] += ...` writes of
hydro_forces.cpp:284-305 rendered as successive `List.set` updates. -/
def addAt (fh : List ℚ) (off : ℕ) : List ℚ → List ℚ
  | [] => fh
  | x :: xs => addAt (fh.set off (fh.getD off 0 + x)) (off + 1) xs

/-- The body's 6-DOF displacement from equilibrium
(hydro_forces.cpp:267-278): world translation minus the translational
equilibrium entries, then Cardan XYZ angles minus the rotational ones. -/
def hsDisplacement (env : HydroEnv) (b : ℕ) : List ℚ :=
  [(env.bodyPos b).getD 0 0 - env.equilibrium.getD (6 * b + 0) 0,
   (env.bodyPos b).getD 1 0 - env.equilibrium.getD (6 * b + 1) 0,
   (env.bodyPos b).getD 2 0 - env.equilibrium.getD (6 * b + 2) 0,
   (env.bodyRpy b).getD 0 0 - env.equilibrium.getD (6 * b + 3) 0,
   (env.bodyRpy b).getD 1 0 - env.equilibrium.getD (6 * b + 4) 0,
   (env.bodyRpy b).getD 2 0 - env.equilibrium.getD (6 * b + 5) 0]

/-- The linear restoring force/torque `-rho*|g|*(K*disp)`
(hydro_forces.cpp:280-286). -/
def hsRestoring (env : HydroEnv) (b : ℕ) : List ℚ :=
  (List.range 6).map (fun i =>
    -(env.rho * env.gravLength) *
      ((List.range 6).map
        (fun j => env.linMatrix b i j * (hsDisplacement env b).getD j 0)).sum)

/-- The buoyancy force `rho * (-g) * displaced_volume`
(hydro_forces.cpp:288-293). -/
def hsBuoyancy (env : HydroEnv) (b : ℕ) : List ℚ :=
  [env.rho * (-env.gravity.getD 0 0) * env.dispVol b,
   env.rho * (-env.gravity.getD 1 0) * env.dispVol b,
   env.rho * (-env.gravity.getD 2 0) * env.dispVol b]

/-- The buoyancy moment `(CB - CG) x buoyancy` (hydro_forces.cpp:295-305). -/
def hsBuoyancyTorque (env : HydroEnv) (b : ℕ) : List ℚ :=
  [env.cbMinusCg.getD (3 * b + 1) 0 * (hsBuoyancy env b).getD 2 0 -
     env.cbMinusCg.getD (3 * b + 2) 0 * (hsBuoyancy env b).getD 1 0,
   env.cbMinusCg.getD (3 * b + 2) 0 * (hsBuoyancy env b).getD 0 0 -
     env.cbMinusCg.getD (3 * b + 0) 0 * (hsBuoyancy env b).getD 2 0,
   env.cbMinusCg.getD (3 * b + 0) 0 * (hsBuoyancy env b).getD 1 0 -
     env.cbMinusCg.getD (3 * b + 1) 0 * (hsBuoyancy env b).getD 0 0]

/-- The per-body block of `TestHydro::ComputeForceHydrostatics`
(hydro_forces.cpp:260-306): restoring force/torque accumulated over the
body's six slots, buoyancy over its three translation slots, buoyancy
moment over its three rotation slots. -/
def hsStep (env : HydroEnv) (fh : List ℚ) (b : ℕ) : List ℚ :=
  addAt (addAt (addAt fh (6 * b) (hsRestoring env b)) (6 * b) (hsBuoyancy env b))
    (6 * b + 3) (hsBuoyancyTorque env b)

/-- The per-slot contribution of body `b`'s hydrostatics to global DOF
index `i`: the three `addAt` windows of `hsStep` read off at `i`. -/
def hsDelta (env : HydroEnv) (b i : ℕ) : ℚ :=
  (if 6 * b ≤ i ∧ i < 6 * b + 6 then (hsRestoring env b).getD (i - 6 * b) 0 else 0) +
  (if 6 * b ≤ i ∧ i < 6 * b + 3 then (hsBuoyancy env b).getD (i - 6 * b) 0 else 0) +
  (if 6 * b + 3 ≤ i ∧ i < 6 * b + 6 then (hsBuoyancyTorque env b).getD (i - (6 * b + 3)) 0 else 0)

/-- `TestHydro::ComputeForceHydrostatics` (hydro_forces.cpp:253-309).  The
function accumulates onto the member buffer `force_hydrostatic_` (passed
here as `fh`) and returns the updated buffer. -/
def computeForceHydrostatics (env : HydroEnv) (fh : List ℚ) : List ℚ :=
  (List.range env.numBodies).foldl (hsStep env) fh

/-- `TestHydro::ComputeForceWaves` (hydro_forces.cpp:454-469): empty body
list raises, otherwise the wave model is queried at the current time. -/
def computeForceWaves (env : HydroEnv) : Except String (List ℚ) :=
  if env.numBodies = 0 then .error "bodies_ array is empty in ComputeForceWaves"
  else .ok (env.waveForce env.chTime)

/-- `TestHydro::CoordinateFuncForBody` (hydro_forces.cpp:471-511): bounds
check on the 1-based body index and the DOF, cache hit when the host time
equals `prev_time`, otherwise zero the four force buffers, recompute
hydrostatics, radiation damping and waves in that order, combine them with
the documented sign convention, and return the requested component. -/
def coordinateFuncForBody (env : HydroEnv) (st : HydroState) (b dofIndex : ℤ) :
    Except String (ℚ × HydroState) :=
  if dofIndex < 0 ∨ 6 ≤ dofIndex ∨ b < 1 ∨ (env.numBodies : ℤ) < b then
    .error "Invalid index in CoordinateFuncForBody"
  else
    let bodyNumOffset := 6 * (b - 1)
    let totalDofs := 6 * env.numBodies
    if env.numBodies = 0 then
      .error "bodies_ array is empty or invalid in CoordinateFuncForBody"
    else if env.chTime = st.prevTime then
      .ok (st.totalForce.getD (bodyNumOffset + dofIndex).toNat 0, st)
    else
      let st1 : HydroState :=
        { st with prevTime := env.chTime,
                  totalForce := st.totalForce.map (fun _ => 0),
                  forceHydrostatic := st.forceHydrostatic.map (fun _ => 0),
                  forceRadiationDamping := st.forceRadiationDamping.map (fun _ => 0),
                  forceWaves := st.forceWaves.map (fun _ => 0) }
      let fh := computeForceHydrostatics env st1.forceHydrostatic
      let st2 : HydroState :=
        { st1 with forceHydrostatic := fh, hydroCalls := st1.hydroCalls + 1 }
      match computeForceRadiationDampingConv env st2 with
      | .error e => .error e
      | .ok st3 =>
        let st4 : HydroState := { st3 with radCalls := st3.radCalls + 1 }
        match computeForceWaves env with
        | .error e => .error e
        | .ok fw =>
          let total : List ℚ :=
            (List.range totalDofs).map (fun i =>
              st4.forceHydrostatic.getD i 0 - st4.forceRadiationDamping.getD i 0 +
                fw.getD i 0)
          let st5 : HydroState :=
            { st4 with forceWaves := fw, totalForce := total,
                       waveCalls := st4.waveCalls + 1 }
          if bodyNumOffset + dofIndex < 0 ∨ (totalDofs : ℤ) ≤ bodyNumOffset then
            .error "Accessing out-of-bounds index in CoordinateFuncForBody"
          else
            .ok (total.getD (bodyNumOffset + dofIndex).toNat 0, st5)

/-- `ForceFunc6d`'s state relevant to force evaluation: its 1-based body
number (hydro_forces.h:142). -/
structure ForceFunc6d where
  bNum : ℤ

/-- `ForceFunc6d::CoordinateFunc` (hydro_forces.cpp:129-137): an index
outside [0,6) is reported and yields 0 without touching the coordinator,
otherwise the call is forwarded to `CoordinateFuncForBody` with the
1-based body number. -/
def forceFunc6dCoordinateFunc (f : ForceFunc6d) (env : HydroEnv) (st : HydroState)
    (i : ℤ) : Except String (ℚ × HydroState) :=
  if 6 ≤ i ∨ i < 0 then .ok (0, st)
  else coordinateFuncForBody env st f.bNum i

/-- `ComponentFunc` (hydro_forces.h:45-86): a DOF index and a possibly
null back-pointer to its `ForceFunc6d`. -/
structure ComponentFunc where
  base : Option ForceFunc6d
  index : ℤ

/-- `ComponentFunc::GetVal` (hydro_forces.cpp:72-78): a null base yields 0;
otherwise the call is forwarded to the owning `ForceFunc6d`, and the time
argument `x` is never consulted. -/
def componentFuncGetVal (cf : ComponentFunc) (env : HydroEnv) (st : HydroState)
    (x : ℚ) : Except String (ℚ × HydroState) :=
  match cf.base with
  | none => .ok (0, st)
  | some f => forceFunc6dCoordinateFunc f env st cf.index

/-- Modelled from the spec: the taper window weight of §4.3 step 3 of the
specification.  The definition of `EnsureProcessedRIRF` is declared at
hydro_forces.h:344 but no definition of it appears among the repository's
source files, so the preprocessing pipeline is reconstructed from the
specification's words: the kernel is held unchanged up to
`taper_start_percent` of the series length, interpolated down to
`taper_final_amplitude` of the original by `taper_end_percent` of the
length, and held at the floor value afterwards. -/
def taperWeight (opts : TaperedDirectOptions) (seriesLen : ℕ) (step : ℕ) : ℚ :=
  let s := opts.taperStartPercent * seriesLen
  let e := opts.taperEndPercent * seriesLen
  if (step : ℚ) ≤ s then 1
  else if e ≤ (step : ℚ) then opts.taperFinalAmplitude
  else if e - s ≠ 0 then
    1 + (((step : ℚ) - s) / (e - s)) * (opts.taperFinalAmplitude - 1)
  else opts.taperFinalAmplitude

/-- Modelled from the spec: §4.3 step 1, optional end-time truncation of
the raw kernel (missing from the sources together with the rest of
`EnsureProcessedRIRF`): samples beyond `rirf_end_time` are zeroed when the
option is positive. -/
def truncatedKern (env : HydroEnv) (opts : TaperedDirectOptions)
    (row col step : ℕ) : ℚ :=
  if 0 < opts.rirfEndTime ∧ opts.rirfEndTime < env.rirfTimeVector.getD step 0 then 0
  else baselineKern env row col step

/-- Modelled from the spec: §4.3 step 2, smoothing of each (row, col) time
series with a configurable odd window (missing from the sources together
with the rest of `EnsureProcessedRIRF`).  Both option names are modelled
as a centered window average of half-width `(window_length - 1) / 2`,
since the specification fixes only the window semantics of the filter. -/
def smoothedKern (env : HydroEnv) (opts : TaperedDirectOptions)
    (row col step : ℕ) : ℚ :=
  let h := ((opts.windowLength - 1) / 2).toNat
  let lo := step - h
  let hi := min (env.rirfSteps - 1) (step + h)
  let idxs := (List.range (hi + 1 - lo)).map (fun k => lo + k)
  if idxs.length = 0 then truncatedKern env opts row col step
  else (idxs.map (truncatedKern env opts row col)).sum / idxs.length

/-- Modelled from the spec: the processed RIRF tensor produced by
`EnsureProcessedRIRF` (§4.3; definition missing from the sources) —
truncation, then smoothing, then tapering, leaving the tensor's shape
untouched. -/
def processedRIRF (env : HydroEnv) (opts : TaperedDirectOptions) :
    ℕ → ℕ → ℕ → ℚ :=
  fun row col step => taperWeight opts env.rirfSteps step * smoothedKern env opts row col step

/-- Modelled from the spec: `EnsureProcessedRIRF` (declared at
hydro_forces.h:344, definition missing from the sources): when the
`rirf_processed_ready_` flag is set the call is a no-op, otherwise the
processed tensor is materialized from the current options and the flag is
set. -/
def ensureProcessedRIRF (env : HydroEnv) (st : HydroState) : HydroState :=
  if st.rirfProcessedReady then st
  else { st with rirfProcessedReady := true,
                 rirfProcessed := some (processedRIRF env st.taperedOpts) }

/-- Modelled from the spec: `ComputeForceRadiationDampingConv` with the
mode switch of §4.2 (the routing is missing from the sources, which
implement only the Baseline path): Baseline runs the convolution against
the raw kernel; TaperedDirect first runs `ensureProcessedRIRF` and then
runs the identical convolution against the processed tensor. -/
def computeForceRadiationDampingConvModed (env : HydroEnv) (st : HydroState) :
    Except String HydroState :=
  match st.convolutionMode with
  | .Baseline => convCore (baselineKern env) env st
  | .TaperedDirect =>
    let st2 := ensureProcessedRIRF env st
    convCore (st2.rirfProcessed.getD (baselineKern env)) env st2

/-- One stepping-loop invocation of the radiation computation: the host
time and the per-body velocities it supplies at that step. -/
structure ConvCall where
  time : ℚ
  linVel : ℕ → List ℚ
  angVel : ℕ → List ℚ

/-- The environment seen by the coordinator during one particular call of a
stepping loop: only the host time and body velocities change between
radiation-damping calls; the hydrodynamic database is fixed. -/
def envForCall (env : HydroEnv) (c : ConvCall) : HydroEnv :=
  { env with chTime := c.time, bodyLinVel := c.linVel, bodyAngVel := c.angVel }

/-- A sequence of `ComputeForceRadiationDampingConv` calls, one per entry,
threading the coordinator state; an exception aborts the run. -/
def runConvCalls (env : HydroEnv) : List ConvCall → HydroState → Except String HydroState
  | [], st => .ok st
  | c :: rest, st =>
    match computeForceRadiationDampingConv (envForCall env c) st with
    | .error e => .error e
    | .ok st2 => runConvCalls env rest st2

/-- A concrete single-body environment: unit density, gravity along -z with
magnitude 10, unit displaced volume, zero stiffness, RIRF time vector
`[0, 1/2, 1]` with a constant unit kernel, still water. -/
def envEx : HydroEnv where
  numBodies := 1
  chTime := 0
  bodyPos := fun _ => [0, 0, 0]
  bodyRpy := fun _ => [0, 0, 0]
  bodyLinVel := fun _ => [0, 0, 0]
  bodyAngVel := fun _ => [0, 0, 0]
  gravity := [0, 0, -10]
  gravLength := 10
  rho := 1
  linMatrix := fun _ _ _ => 0
  dispVol := fun _ => 1
  equilibrium := List.replicate 6 0
  cbMinusCg := List.replicate 3 0
  rirfTimeVector := [0, 1/2, 1]
  rirfSteps := 3
  rirfVal := fun _ _ _ _ => 1
  waveForce := fun _ => List.replicate 6 0

/-- The freshly constructed coordinator state for one body: empty history,
zeroed 6-vector force buffers, empty wave buffer, `prev_time = -1`,
Baseline mode, preprocessing not yet run. -/
def stEx : HydroState where
  timeHistory := []
  velocityHistory := [[]]
  forceHydrostatic := List.replicate 6 0
  forceRadiationDamping := List.replicate 6 0
  forceWaves := []
  totalForce := List.replicate 6 0
  prevTime := -1
  convolutionMode := .Baseline
  rirfProcessedReady := false
  rirfProcessed := none
  taperedOpts := {}
  hydroCalls := 0
  radCalls := 0
  waveCalls := 0

/-- A state whose cached `prev_time` matches `envEx`'s host time, with a
recognizable cached total-force vector. -/
def stC2 : HydroState :=
  { stEx with prevTime := 0, totalForce := [1, 2, 3, 4, 5, 6] }

/-- A state that has already recorded a radiation computation at time 0,
the host time of `envEx`. -/
def stC3 : HydroState :=
  { stEx with timeHistory := [0], velocityHistory := [[[0, 0, 0, 0, 0, 0]]] }

/-- The result of a full force recomputation at `envEx`/`stEx`. -/
def coordOutC4 : ℚ × HydroState :=
  match coordinateFuncForBody envEx stEx 1 2 with
  | .ok p => p
  | .error _ => (0, stEx)

/-- Four radiation-damping calls at strictly increasing times 0, 1/2, 1, 2
with zero body velocities. -/
def callsC6 : List ConvCall :=
  [⟨0, fun _ => [0, 0, 0], fun _ => [0, 0, 0]⟩,
   ⟨1/2, fun _ => [0, 0, 0], fun _ => [0, 0, 0]⟩,
   ⟨1, fun _ => [0, 0, 0], fun _ => [0, 0, 0]⟩,
   ⟨2, fun _ => [0, 0, 0], fun _ => [0, 0, 0]⟩]

/-- The final coordinator state after the four calls of `callsC6`. -/
def runOutC6 : HydroState :=
  match runConvCalls envEx callsC6 stEx with
  | .ok s => s
  | .error _ => stEx

/-- A fresh one-body state placed in TaperedDirect mode. -/
def stC1 : HydroState :=
  { stEx with convolutionMode := .TaperedDirect }

/-! ## Helper lemmas -/

/-- Reading a `map` over `range` at an in-range index yields the mapped
function applied to the index. -/
theorem getD_map_range (n : ℕ) (f : ℕ → ℚ) (i : ℕ) (hi : i < n) :
    ((List.range n).map f).getD i 0 = f i := by
  rw [List.getD_eq_getElem?_getD, List.getElem?_map, List.getElem?_range hi]
  rfl

/-- `getD` into a replicated zero vector is zero. -/
theorem getD_replicate_zero (n i : ℕ) : (List.replicate n (0 : ℚ)).getD i 0 = 0 := by
  rw [List.getD_eq_getElem?_getD, List.getElem?_replicate]
  split <;> rfl

/-! ## Claim theorems -/

/-- C10: `ComponentFunc::GetVal` ignores its time argument: for a fixed
coordinator/body state the result is the same for any two argument values;
a null base pointer yields 0 without touching the state; a non-null base
forwards to the owning `ForceFunc6d`'s `CoordinateFunc` (hence to
`CoordinateFuncForBody`, which evaluates at the body's current simulation
time), never consulting the requested time. -/
theorem componentFuncGetVal_ignores_time (cf : ComponentFunc) (env : HydroEnv)
    (st : HydroState) (x1 x2 : ℚ) :
    componentFuncGetVal cf env st x1 = componentFuncGetVal cf env st x2 ∧
    (∀ i : ℤ, componentFuncGetVal { base := none, index := i } env st x1 = .ok (0, st)) ∧
    (∀ f : ForceFunc6d, ∀ i : ℤ,
      componentFuncGetVal { base := some f, index := i } env st x1 =
        forceFunc6dCoordinateFunc f env st i) :=
  ⟨rfl, fun _ => rfl, fun _ _ => rfl⟩

/-- C3: if the front of the recorded time history equals the current
simulation time, `ComputeForceRadiationDampingConv` raises the documented
duplicate-computation error; the error is raised before any history
mutation (the call commits no state). -/
theorem conv_duplicate_error (env : HydroEnv) (st : HydroState)
    (h : st.timeHistory ≠ [] ∧ env.chTime = st.timeHistory.headD 0) :
    computeForceRadiationDampingConv env st =
      .error "Tried to compute the radiation damping convolution twice within the same time step!" := by
  unfold computeForceRadiationDampingConv convCore
  rw [if_pos h]

/-- C3 witness: a second call at time 0 with time 0 already at the front of
the history raises the duplicate error. -/
theorem conv_duplicate_error_witness :
    computeForceRadiationDampingConv envEx stC3 =
      .error "Tried to compute the radiation damping convolution twice within the same time step!" :=
  conv_duplicate_error envEx stC3 (by constructor <;> with_unfolding_all decide)

/-- C2: for every in-range 1-based body index and DOF, when the host time
equals `prev_time`, `CoordinateFuncForBody` returns the cached
`total_force` entry at `6*(b-1)+dof` and leaves the whole coordinator
state (force buffers, histories, `prev_time`, and the ghost invocation
counters of the three force computations) unchanged. -/
theorem coordinateFuncForBody_cache_hit (env : HydroEnv) (st : HydroState)
    (b dof : ℤ) (hdof0 : 0 ≤ dof) (hdof : dof < 6) (hb1 : 1 ≤ b)
    (hbN : b ≤ (env.numBodies : ℤ)) (ht : env.chTime = st.prevTime) :
    coordinateFuncForBody env st b dof =
      .ok (st.totalForce.getD (6 * (b - 1) + dof).toNat 0, st) := by
  have hN : ¬ env.numBodies = 0 := by
    intro h0
    rw [h0] at hbN
    omega
  unfold coordinateFuncForBody
  rw [if_neg (by omega)]
  rw [if_neg hN, if_pos ht]

/-- C2 witness: a cache hit at body 1, DOF 2 returns the cached entry 3 and
the state itself. -/
theorem coordinateFuncForBody_cache_hit_witness :
    coordinateFuncForBody envEx stC2 1 2 = .ok (3, stC2) :=
  coordinateFuncForBody_cache_hit envEx stC2 1 2 (by decide) (by decide) (by decide)
    (by decide) (by with_unfolding_all decide)

/-- C7: when, after recording the current time and pruning, fewer than two
history samples remain, `ComputeForceRadiationDampingConv` performs no
convolution: it commits the updated histories and returns with the
previous radiation-damping vector untouched. -/
theorem conv_cold_start (env : HydroEnv) (st : HydroState)
    (hnodup : ¬(st.timeHistory ≠ [] ∧ env.chTime = st.timeHistory.headD 0))
    (hshort : (pruneHistory (env.chTime - maxRIRFTime env) (env.chTime :: st.timeHistory)
      (insertVels env st)).1.length ≤ 1) :
    computeForceRadiationDampingConv env st =
      .ok { st with
            timeHistory := (pruneHistory (env.chTime - maxRIRFTime env)
              (env.chTime :: st.timeHistory) (insertVels env st)).1,
            velocityHistory := (pruneHistory (env.chTime - maxRIRFTime env)
              (env.chTime :: st.timeHistory) (insertVels env st)).2 } := by
  unfold computeForceRadiationDampingConv convCore
  rw [if_neg hnodup, if_pos hshort]

/-- C7 witness: the first-ever call on a fresh one-body coordinator at
t = 0 keeps the damping vector at the all-zero 6-vector. -/
theorem conv_cold_start_witness :
    computeForceRadiationDampingConv envEx stEx =
      .ok { stEx with
            timeHistory := (pruneHistory (envEx.chTime - maxRIRFTime envEx)
              (envEx.chTime :: stEx.timeHistory) (insertVels envEx stEx)).1,
            velocityHistory := (pruneHistory (envEx.chTime - maxRIRFTime envEx)
              (envEx.chTime :: stEx.timeHistory) (insertVels envEx stEx)).2 } ∧
    ({ stEx with
       timeHistory := (pruneHistory (envEx.chTime - maxRIRFTime envEx)
         (envEx.chTime :: stEx.timeHistory) (insertVels envEx stEx)).1,
       velocityHistory := (pruneHistory (envEx.chTime - maxRIRFTime envEx)
         (envEx.chTime :: stEx.timeHistory) (insertVels envEx stEx)).2 } :
      HydroState).forceRadiationDamping = List.replicate 6 0 :=
  ⟨conv_cold_start envEx stEx (by with_unfolding_all decide)
      (by with_unfolding_all decide),
   rfl⟩

/-- C1: with the spec-modelled preprocessing in place, when the convolution
mode is TaperedDirect the call routes through `ensureProcessedRIRF` and
then runs the very same convolution core with the processed tensor
substituted for the raw kernel (Baseline runs the identical core on the
raw kernel, so all other steps coincide); the `rirf_processed_ready_` flag
is set by the first trigger, a set flag makes `ensureProcessedRIRF` a
no-op (the preprocessing runs exactly once), and an unset flag makes it
materialize the processed tensor from the current options. -/
theorem tapered_direct_lazy_preprocessing (env : HydroEnv) (st : HydroState) :
    (ensureProcessedRIRF env st).rirfProcessedReady = true ∧
    (st.rirfProcessedReady = true → ensureProcessedRIRF env st = st) ∧
    (st.rirfProcessedReady = false →
      (ensureProcessedRIRF env st).rirfProcessed =
        some (processedRIRF env st.taperedOpts)) ∧
    (st.convolutionMode = .TaperedDirect →
      computeForceRadiationDampingConvModed env st =
        convCore ((ensureProcessedRIRF env st).rirfProcessed.getD (baselineKern env)) env
          (ensureProcessedRIRF env st)) ∧
    (st.convolutionMode = .Baseline →
      computeForceRadiationDampingConvModed env st = convCore (baselineKern env) env st) := by
  refine ⟨?_, ?_, ?_, ?_, ?_⟩
  · unfold ensureProcessedRIRF
    split
    · assumption
    · rfl
  · intro h
    unfold ensureProcessedRIRF
    rw [if_pos h]
  · intro h
    unfold ensureProcessedRIRF
    rw [if_neg (by simp [h])]
  · intro h
    unfold computeForceRadiationDampingConvModed
    rw [h]
  · intro h
    unfold computeForceRadiationDampingConvModed
    rw [h]

/-- C1 witness: on a fresh TaperedDirect-mode state the call equals the
convolution core over the processed tensor of the post-trigger state, the
trigger sets the ready flag, and a second trigger is a no-op. -/
theorem tapered_direct_lazy_preprocessing_witness :
    (computeForceRadiationDampingConvModed envEx stC1 =
      convCore ((ensureProcessedRIRF envEx stC1).rirfProcessed.getD (baselineKern envEx)) envEx
        (ensureProcessedRIRF envEx stC1)) ∧
    (ensureProcessedRIRF envEx stC1).rirfProcessedReady = true ∧
    ensureProcessedRIRF envEx (ensureProcessedRIRF envEx stC1) =
      ensureProcessedRIRF envEx stC1 :=
  ⟨(tapered_direct_lazy_preprocessing envEx stC1).2.2.2.1 rfl,
   (tapered_direct_lazy_preprocessing envEx stC1).1,
   (tapered_direct_lazy_preprocessing envEx (ensureProcessedRIRF envEx stC1)).2.1
     (tapered_direct_lazy_preprocessing envEx stC1).1⟩

/-- C9: when the convolution's query time exactly equals the older or the
newer endpoint of the bracketing history pair, the interpolated velocity is
that stored sample, exactly and with no blending; a strictly interior query
yields componentwise the linear blend with weight
`(newer - query)/(newer - older)` on the older sample and the complement on
the newer one. -/
theorem interp_exact_match_shortcircuit (q newerT olderT : ℚ) (newerV olderV : List ℚ) :
    (q = olderT → interpVel q newerT olderT newerV olderV = .ok olderV) ∧
    (q ≠ olderT → q = newerT → interpVel q newerT olderT newerV olderV = .ok newerV) ∧
    (olderT < q → q < newerT →
      ∃ v, interpVel q newerT olderT newerV olderV = .ok v ∧
        ∀ i, i < olderV.length → i < newerV.length →
          v.getD i 0 =
            ((newerT - q) / (newerT - olderT)) * olderV.getD i 0 +
              (1 - (newerT - q) / (newerT - olderT)) * newerV.getD i 0) := by
  refine ⟨?_, ?_, ?_⟩
  · intro h
    unfold interpVel
    rw [if_pos h]
  · intro h1 h2
    unfold interpVel
    rw [if_neg h1, if_pos h2]
  · intro h1 h2
    have hne : newerT - olderT ≠ 0 := sub_ne_zero.mpr (ne_of_gt (h1.trans h2))
    refine ⟨List.zipWith
        (fun a b =>
          (if newerT - olderT ≠ 0 then (newerT - q) / (newerT - olderT) else 0) * a +
          (1 - (if newerT - olderT ≠ 0 then (newerT - q) / (newerT - olderT) else 0)) * b)
        olderV newerV, ?_, ?_⟩
    · unfold interpVel
      rw [if_neg (ne_of_gt h1), if_neg (ne_of_lt h2), if_pos ⟨h1, h2⟩]
    · intro i hio hin
      rw [List.getD_eq_getElem?_getD, List.getElem?_zipWith,
        List.getElem?_eq_getElem hio, List.getElem?_eq_getElem hin]
      simp only [if_pos hne, Option.getD_some]
      rw [List.getD_eq_getElem olderV 0 hio, List.getD_eq_getElem newerV 0 hin]

/-- C9 witness: with history times 0 and 2, the blend at query time 1 of
older sample 10 and newer sample 20 is 15, and exact endpoint queries
return the stored samples unchanged. -/
theorem interp_exact_match_shortcircuit_witness :
    (interpVel 0 2 0 [20] [10] = .ok [10]) ∧
    (interpVel 2 2 0 [20] [10] = .ok [20]) ∧
    (∃ v, interpVel 1 2 0 [20] [10] = .ok v ∧
      ∀ i, i < ([10] : List ℚ).length → i < ([20] : List ℚ).length →
        v.getD i 0 =
          (((2 : ℚ) - 1) / ((2 : ℚ) - 0)) * ([10] : List ℚ).getD i 0 +
            (1 - ((2 : ℚ) - 1) / ((2 : ℚ) - 0)) * ([20] : List ℚ).getD i 0) :=
  ⟨(interp_exact_match_shortcircuit 0 2 0 [20] [10]).1 rfl,
   (interp_exact_match_shortcircuit 2 2 0 [20] [10]).2.1
     (by with_unfolding_all decide) rfl,
   (interp_exact_match_shortcircuit 1 2 0 [20] [10]).2.2
     (by with_unfolding_all decide) (by with_unfolding_all decide)⟩

/-- C4: on every recomputation (host time differs from `prev_time`) that
completes, the committed state satisfies
`total_force[i] = force_hydrostatic[i] - force_radiation_damping[i] + force_waves[i]`
for every index `i` in `[0, 6N)`: the radiation-damping contribution is
subtracted while hydrostatic and wave contributions are added. -/
theorem total_force_sign_law (env : HydroEnv) (st : HydroState) (b dof : ℤ)
    (v : ℚ) (st2 : HydroState) (hne : env.chTime ≠ st.prevTime)
    (hok : coordinateFuncForBody env st b dof = .ok (v, st2)) :
    ∀ i, i < 6 * env.numBodies →
      st2.totalForce.getD i 0 =
        st2.forceHydrostatic.getD i 0 - st2.forceRadiationDamping.getD i 0 +
          st2.forceWaves.getD i 0 := by
  intro i hi
  simp only [coordinateFuncForBody] at hok
  split at hok
  · simp at hok
  · split at hok
    · simp at hok
    · split at hok
      · simp at hok
      · split at hok
        · simp at hok
        · split at hok
          · simp at hok
          · simp only [Except.ok.injEq, Prod.mk.injEq] at hok
            obtain ⟨-, hst⟩ := hok
            subst hst
            dsimp only
            rw [getD_map_range _ _ i hi]

/-- C4 witness: a full recomputation at `envEx`/`stEx` commits a state
satisfying the sign law at heave (index 2). -/
theorem total_force_sign_law_witness :
    coordOutC4.2.totalForce.getD 2 0 =
      coordOutC4.2.forceHydrostatic.getD 2 0 -
        coordOutC4.2.forceRadiationDamping.getD 2 0 +
        coordOutC4.2.forceWaves.getD 2 0 :=
  total_force_sign_law envEx stEx 1 2 coordOutC4.1 coordOutC4.2
    (by with_unfolding_all decide) (by with_unfolding_all rfl) 2 (by decide)

/-- Reading a `List.set` result at an arbitrary index. -/
theorem getD_set (l : List ℚ) (j : ℕ) (v : ℚ) (i : ℕ) :
    (l.set j v).getD i 0 = if j = i ∧ j < l.length then v else l.getD i 0 := by
  rw [List.getD_eq_getElem?_getD, List.getElem?_set]
  by_cases hji : j = i
  · by_cases hlen : j < l.length
    · rw [if_pos hji, if_pos hlen, if_pos ⟨hji, hlen⟩]
      rfl
    · rw [if_pos hji, if_neg hlen, if_neg (fun h => hlen h.2)]
      rw [List.getD_eq_getElem?_getD, List.getElem?_eq_none (by omega)]
  · rw [if_neg hji, if_neg (fun h => hji h.1), List.getD_eq_getElem?_getD]

/-- `addAt` preserves the buffer length. -/
theorem addAt_length (c : List ℚ) (fh : List ℚ) (off : ℕ) :
    (addAt fh off c).length = fh.length := by
  induction c generalizing fh off with
  | nil => rfl
  | cons x xs ih => rw [addAt, ih, List.length_set]

/-- Reading an `addAt` result: the original entry plus the windowed
contribution. -/
theorem addAt_getD (c : List ℚ) (fh : List ℚ) (off i : ℕ) (hi : i < fh.length) :
    (addAt fh off c).getD i 0 =
      fh.getD i 0 + (if off ≤ i ∧ i < off + c.length then c.getD (i - off) 0 else 0) := by
  induction c generalizing fh off with
  | nil => simp [addAt]
  | cons x xs ih =>
    rw [addAt, ih _ (off + 1) (by rw [List.length_set]; exact hi), getD_set]
    by_cases hji : off = i
    · have hlen : off < fh.length := hji ▸ hi
      rw [if_pos ⟨hji, hlen⟩, if_neg (by omega), if_pos (by simp; omega)]
      subst hji
      simp
    · rw [if_neg (fun h => hji h.1)]
      by_cases hc : off + 1 ≤ i ∧ i < off + 1 + xs.length
      · rw [if_pos hc, if_pos (by simp; omega)]
        have hio : i - off = (i - (off + 1)) + 1 := by omega
        rw [hio, List.getD_cons_succ]
      · rw [if_neg hc, if_neg (by simp; omega)]

/-- The restoring vector has six entries. -/
theorem hsRestoring_length (env : HydroEnv) (b : ℕ) :
    (hsRestoring env b).length = 6 := by
  simp [hsRestoring]

/-- `hsStep` preserves the buffer length. -/
theorem hsStep_length (env : HydroEnv) (fh : List ℚ) (b : ℕ) :
    (hsStep env fh b).length = fh.length := by
  unfold hsStep
  rw [addAt_length, addAt_length, addAt_length]

/-- Reading a per-body hydrostatics step: original entry plus `hsDelta`. -/
theorem hsStep_getD (env : HydroEnv) (fh : List ℚ) (b i : ℕ) (hi : i < fh.length) :
    (hsStep env fh b).getD i 0 = fh.getD i 0 + hsDelta env b i := by
  unfold hsStep
  rw [addAt_getD _ _ _ _ (by rw [addAt_length, addAt_length]; exact hi),
    addAt_getD _ _ _ _ (by rw [addAt_length]; exact hi),
    addAt_getD _ _ _ _ hi]
  unfold hsDelta
  rw [hsRestoring_length]
  simp only [show (hsBuoyancy env b).length = 3 from rfl,
    show (hsBuoyancyTorque env b).length = 3 from rfl,
    show 6 * b + 3 + 3 = 6 * b + 6 from by omega]
  ring

/-- Folding `hsStep` over a list of body indices adds the per-body deltas. -/
theorem hs_foldl_getD (env : HydroEnv) (l : List ℕ) (fh : List ℚ) (i : ℕ)
    (hi : i < fh.length) :
    (l.foldl (hsStep env) fh).getD i 0 =
      fh.getD i 0 + (l.map (fun b => hsDelta env b i)).sum := by
  induction l generalizing fh with
  | nil => simp
  | cons b t ih =>
    rw [List.foldl_cons, ih _ (by rw [hsStep_length]; exact hi),
      hsStep_getD env fh b i hi, List.map_cons, List.sum_cons]
    ring

/-- C5 counterexample: on the concrete single-body environment `envEx`,
calling `ComputeForceHydrostatics` a second time with no state change in
between (so the member buffer holds the first call's result) returns a
different 6N vector than the first call — the function accumulates onto
the member buffer rather than being a pure function of body state. -/
theorem hydrostatics_not_pure_counterexample :
    computeForceHydrostatics envEx (computeForceHydrostatics envEx (List.replicate 6 0)) ≠
      computeForceHydrostatics envEx (List.replicate 6 0) := by
  with_unfolding_all decide

/-- C5 amended: `ComputeForceHydrostatics` deterministically adds a
contribution that depends only on the current body state to the member
buffer it starts from: each entry of the result is the buffer entry plus
the entry the call computes from a zeroed buffer.  It is therefore a pure
function of the current body state only when the buffer is zeroed before
the call (as `CoordinateFuncForBody` does); a repeated call without
re-zeroing returns the buffer plus the contribution again. -/
theorem hydrostatics_accumulates_pure_delta (env : HydroEnv) (fh : List ℚ) (i : ℕ)
    (hlen : fh.length = 6 * env.numBodies) (hi : i < 6 * env.numBodies) :
    (computeForceHydrostatics env fh).getD i 0 =
      fh.getD i 0 +
        (computeForceHydrostatics env (List.replicate (6 * env.numBodies) 0)).getD i 0 := by
  unfold computeForceHydrostatics
  rw [hs_foldl_getD env _ fh i (by omega),
    hs_foldl_getD env _ _ i (by rw [List.length_replicate]; exact hi),
    getD_replicate_zero, zero_add]

/-- C5 amended witness: with a nonzero starting buffer on `envEx`, the
heave entry of the result is the buffer entry plus the zero-buffer
contribution. -/
theorem hydrostatics_accumulates_pure_delta_witness :
    (computeForceHydrostatics envEx [1, 1, 1, 1, 1, 1]).getD 2 0 =
      ([1, 1, 1, 1, 1, 1] : List ℚ).getD 2 0 +
        (computeForceHydrostatics envEx (List.replicate (6 * envEx.numBodies) 0)).getD 2 0 :=
  hydrostatics_accumulates_pure_delta envEx [1, 1, 1, 1, 1, 1] 2 (by decide) (by decide)

/-- C8: for every monotonic (nondecreasing) RIRF time vector with at least
two samples, the per-sample trapezoid widths computed at construction sum
to the full time span `t[N-1] - t[0]`. -/
theorem mkRirfWidthVector_sum (t : List ℚ) (h2 : 2 ≤ t.length)
    (hmono : List.Chain' (· ≤ ·) t) :
    (mkRirfWidthVector t).sum = t.getD (t.length - 1) 0 - t.getD 0 0 := by
  obtain ⟨m, hm⟩ : ∃ m, t.length = m + 1 := ⟨t.length - 1, by omega⟩
  have hadj : ∀ i, i < m → t.getD i 0 ≤ t.getD (i + 1) 0 := by
    intro i hi
    have h := List.chain'_iff_get.mp hmono i (by omega)
    rwa [List.get_eq_getElem, List.get_eq_getElem,
      ← List.getD_eq_getElem t 0 (by omega), ← List.getD_eq_getElem t 0 (by omega)] at h
  have hbridge : (mkRirfWidthVector t).sum =
      ∑ ii ∈ Finset.range t.length,
        ((if ii + 1 < t.length then |t.getD (ii + 1) 0 - t.getD ii 0| / 2 else 0) +
         (if 0 < ii then |t.getD ii 0 - t.getD (ii - 1) 0| / 2 else 0)) := rfl
  have hS1 : ∑ ii ∈ Finset.range (m + 1),
        (if ii + 1 < m + 1 then |t.getD (ii + 1) 0 - t.getD ii 0| / 2 else 0) =
      ∑ ii ∈ Finset.range m, (t.getD (ii + 1) 0 - t.getD ii 0) / 2 := by
    rw [Finset.sum_range_succ, if_neg (by omega), add_zero]
    refine Finset.sum_congr rfl ?_
    intro ii hii
    rw [Finset.mem_range] at hii
    rw [if_pos (by omega), abs_of_nonneg (sub_nonneg.mpr (hadj ii hii))]
  have hS2 : ∑ ii ∈ Finset.range (m + 1),
        (if 0 < ii then |t.getD ii 0 - t.getD (ii - 1) 0| / 2 else 0) =
      ∑ ii ∈ Finset.range m, (t.getD (ii + 1) 0 - t.getD ii 0) / 2 := by
    rw [Finset.sum_range_succ', if_neg (by omega), add_zero]
    refine Finset.sum_congr rfl ?_
    intro ii hii
    rw [Finset.mem_range] at hii
    rw [if_pos (by omega)]
    simp only [Nat.add_sub_cancel]
    rw [abs_of_nonneg (sub_nonneg.mpr (hadj ii hii))]
  rw [hbridge, Finset.sum_add_distrib, hm, hS1, hS2, ← Finset.sum_add_distrib]
  have hhalves : ∀ ii ∈ Finset.range m,
      (t.getD (ii + 1) 0 - t.getD ii 0) / 2 + (t.getD (ii + 1) 0 - t.getD ii 0) / 2 =
        t.getD (ii + 1) 0 - t.getD ii 0 := fun ii _ => add_halves _
  rw [Finset.sum_congr rfl hhalves, Finset.sum_range_sub (fun i => t.getD i 0) m]
  simp only [Nat.add_sub_cancel]

/-- C8 witness: for the time vector `[0, 1/2, 1]` the widths sum to 1, the
full span. -/
theorem mkRirfWidthVector_sum_witness :
    (mkRirfWidthVector [0, 1/2, 1]).sum =
      ([0, 1/2, 1] : List ℚ).getD (([0, 1/2, 1] : List ℚ).length - 1) 0 -
        ([0, 1/2, 1] : List ℚ).getD 0 0 :=
  mkRirfWidthVector_sum [0, 1/2, 1] (by decide)
    (List.chain'_cons.mpr ⟨by norm_num, List.chain'_cons.mpr ⟨by norm_num,
      List.chain'_singleton _⟩⟩)

/-- The pruning loop never empties a nonempty history (its guard requires
more than one sample). -/
theorem pruneAux_length_pos (fuel : ℕ) (minT : ℚ) (times : List ℚ)
    (vels : List (List (List ℚ))) (h : 1 ≤ times.length) :
    1 ≤ (pruneHistoryAux fuel minT times vels).1.length := by
  induction fuel generalizing times vels with
  | zero => exact h
  | succ fuel ih =>
    rw [pruneHistoryAux]
    split
    · exact ih _ _ (by rw [List.length_dropLast]; omega)
    · exact h

/-- The pruning loop only pops from the back: its result is a prefix of
the input history. -/
theorem pruneAux_prefix (fuel : ℕ) (minT : ℚ) (times : List ℚ)
    (vels : List (List (List ℚ))) :
    (pruneHistoryAux fuel minT times vels).1 <+: times := by
  induction fuel generalizing times vels with
  | zero => exact List.prefix_refl _
  | succ fuel ih =>
    rw [pruneHistoryAux]
    split
    · exact (ih _ _).trans (List.dropLast_prefix times)
    · exact List.prefix_refl _

/-- With enough fuel (the loop pops one sample per unit), the pruning loop
runs to its exit condition: either one sample remains or the second-oldest
retained time is at least the window minimum. -/
theorem pruneAux_exit (fuel : ℕ) (minT : ℚ) (times : List ℚ)
    (vels : List (List (List ℚ))) (hfuel : times.length ≤ fuel) :
    ¬(1 < (pruneHistoryAux fuel minT times vels).1.length ∧
      (pruneHistoryAux fuel minT times vels).1.getD
        ((pruneHistoryAux fuel minT times vels).1.length - 2) 0 < minT) := by
  induction fuel generalizing times vels with
  | zero =>
    rw [pruneHistoryAux]
    intro h
    have h1 : 1 < times.length := h.1
    omega
  | succ fuel ih =>
    rw [pruneHistoryAux]
    split
    · exact ih _ _ (by rw [List.length_dropLast]; omega)
    · assumption

/-- In a strictly descending list every element is at most the head. -/
theorem chain'_desc_le_head (l : List ℚ)
    (h : List.Chain' (fun a b => b < a) l) : ∀ x ∈ l, x ≤ l.headD 0 := by
  cases l with
  | nil => intro x hx; cases hx
  | cons a t =>
    intro x hx
    rcases List.mem_cons.mp hx with rfl | hxt
    · exact le_refl _
    · have hp : List.Pairwise (fun a b => b < a) (a :: t) :=
        List.chain'_iff_pairwise.mp h
      exact le_of_lt ((List.pairwise_cons.mp hp).1 x hxt)

/-- A nonempty prefix starts with the same head. -/
theorem prefix_headD (r l : List ℚ) (hpre : r <+: l) (hne : r ≠ []) :
    r.headD 0 = l.headD 0 := by
  obtain ⟨s, hs⟩ := hpre
  cases r with
  | nil => exact absurd rfl hne
  | cons a t => rw [← hs]; rfl

/-- A prefix of a strictly descending list is strictly descending. -/
theorem chain'_of_prefix (r l : List ℚ) (hpre : r <+: l)
    (h : List.Chain' (fun a b => b < a) l) :
    List.Chain' (fun a b => b < a) r := by
  rw [List.prefix_iff_eq_take.mp hpre]
  exact h.take _

/-- Inverting a successful `Except` bind. -/
theorem except_bind_ok {α β : Type} (e : Except String α) (f : α → Except String β)
    (b : β) (h : (e >>= f) = .ok b) : ∃ a, e = .ok a ∧ f a = .ok b := by
  cases e with
  | error s => simp [Bind.bind, Except.bind] at h
  | ok a => exact ⟨a, rfl, by simpa [Bind.bind, Except.bind] using h⟩

/-- One radiation-damping call at a time newer than every recorded sample:
the committed history is nonempty, starts with the current time, stays
strictly descending, and every retained sample except possibly the oldest
lies within the RIRF window of the current time. -/
theorem conv_step_history (env : HydroEnv) (st st2 : HydroState)
    (hdesc : List.Chain' (fun a b => b < a) st.timeHistory)
    (hlt : ∀ x ∈ st.timeHistory, x < env.chTime)
    (hok : computeForceRadiationDampingConv env st = .ok st2) :
    st2.timeHistory ≠ [] ∧
    st2.timeHistory.headD 0 = env.chTime ∧
    List.Chain' (fun a b => b < a) st2.timeHistory ∧
    ∀ x ∈ st2.timeHistory.dropLast, env.chTime - maxRIRFTime env ≤ x := by
  have hguard : ¬(st.timeHistory ≠ [] ∧ env.chTime = st.timeHistory.headD 0) := by
    rintro ⟨hne, heq⟩
    have hmem : st.timeHistory.headD 0 ∈ st.timeHistory := by
      rw [List.headD_eq_head?, List.head?_eq_head hne]
      exact List.head_mem hne
    exact absurd (heq ▸ hlt _ hmem) (lt_irrefl _)
  -- facts about the pruned history
  set r := pruneHistory (env.chTime - maxRIRFTime env) (env.chTime :: st.timeHistory)
    (insertVels env st) with hr
  have hr1 : 1 ≤ r.1.length :=
    pruneAux_length_pos _ _ _ _ (by simp)
  have hrne : r.1 ≠ [] := by
    intro h
    rw [h] at hr1
    simp at hr1
  have hpre : r.1 <+: (env.chTime :: st.timeHistory) := pruneAux_prefix _ _ _ _
  have hexit := pruneAux_exit (env.chTime :: st.timeHistory).length
    (env.chTime - maxRIRFTime env) (env.chTime :: st.timeHistory) (insertVels env st)
    (le_refl _)
  have hchain_ins : List.Chain' (fun a b => b < a) (env.chTime :: st.timeHistory) :=
    List.chain'_cons'.mpr ⟨fun y hy => hlt y (List.mem_of_mem_head? hy), hdesc⟩
  have hchain_r : List.Chain' (fun a b => b < a) r.1 :=
    chain'_of_prefix _ _ hpre hchain_ins
  have hhead : r.1.headD 0 = env.chTime := prefix_headD _ _ hpre hrne
  have hbound : ∀ x ∈ r.1.dropLast, env.chTime - maxRIRFTime env ≤ x := by
    intro x hx
    by_cases hlen1 : r.1.length ≤ 1
    · have : r.1.dropLast = [] := by
        have := List.length_dropLast r.1
        exact List.eq_nil_of_length_eq_zero (by omega)
      rw [this] at hx
      cases hx
    · push_neg at hlen1
      have hmin : env.chTime - maxRIRFTime env ≤ r.1.getD (r.1.length - 2) 0 := by
        by_contra hcon
        push_neg at hcon
        exact hexit ⟨hlen1, hcon⟩
      obtain ⟨i, hi, hix⟩ := List.mem_iff_getElem.mp hx
      rw [List.getElem_dropLast] at hix
      have hilen : i < r.1.length - 1 := by
        have := List.length_dropLast r.1
        omega
      have hp := List.pairwise_iff_getElem.mp (List.chain'_iff_pairwise.mp hchain_r)
      rcases Nat.lt_or_ge i (r.1.length - 2) with hcase | hcase
      · have hj2 : r.1.length - 2 < r.1.length := by omega
        have hlt2 := hp i (r.1.length - 2) (by omega) hj2 (by omega)
        rw [List.getD_eq_getElem _ _ hj2] at hmin
        rw [← hix]
        exact le_of_lt (lt_of_le_of_lt hmin hlt2)
      · have hieq : i = r.1.length - 2 := by omega
        subst hieq
        rw [List.getD_eq_getElem _ _ (by omega : r.1.length - 2 < r.1.length)] at hmin
        rw [← hix]
        exact hmin
  -- now reduce the call
  simp only [computeForceRadiationDampingConv, convCore] at hok
  rw [if_neg hguard] at hok
  rw [← hr] at hok
  split at hok
  · simp only [Except.ok.injEq] at hok
    rw [← hok]
    exact ⟨hrne, hhead, hchain_r, hbound⟩
  · obtain ⟨frd, hcl, hok2⟩ := except_bind_ok _ _ _ hok
    simp only [Except.ok.injEq] at hok2
    rw [← hok2]
    exact ⟨hrne, hhead, hchain_r, hbound⟩

/-- `getLastD` of a nonempty list does not depend on the default. -/
theorem getLastD_of_ne_nil (l : List ℚ) (d1 d2 : ℚ) (h : l ≠ []) :
    l.getLastD d1 = l.getLastD d2 := by
  rw [List.getLastD_eq_getLast?, List.getLastD_eq_getLast?, List.getLast?_eq_getLast l h]
  rfl

/-- Invariant of a stepping loop of radiation-damping calls at strictly
increasing times: the final history is nonempty, headed by the last call
time, strictly descending, and all retained samples except possibly the
oldest lie within the RIRF window of the latest time. -/
theorem runConvCalls_inv (env : HydroEnv) (calls : List ConvCall) :
    ∀ (st st2 : HydroState),
      List.Chain' (fun c c2 => c.time < c2.time) calls →
      (∀ c ∈ calls.head?, ∀ x ∈ st.timeHistory, x < c.time) →
      List.Chain' (fun a b => b < a) st.timeHistory →
      runConvCalls env calls st = .ok st2 →
      (calls = [] → st2 = st) ∧
      (calls ≠ [] →
        st2.timeHistory ≠ [] ∧
        st2.timeHistory.headD 0 = (calls.map ConvCall.time).getLastD 0 ∧
        List.Chain' (fun a b => b < a) st2.timeHistory ∧
        ∀ x ∈ st2.timeHistory.dropLast,
          st2.timeHistory.headD 0 - maxRIRFTime env ≤ x) := by
  induction calls with
  | nil =>
    intro st st2 _ _ _ hok
    simp only [runConvCalls, Except.ok.injEq] at hok
    exact ⟨fun _ => hok.symm, fun h => absurd rfl h⟩
  | cons c rest ih =>
    intro st st2 hchain hhead hdesc hok
    rw [runConvCalls] at hok
    split at hok
    · simp at hok
    · rename_i st1 heq
      have hstep := conv_step_history (envForCall env c) st st1 hdesc
        (fun x hx => hhead c rfl x hx) heq
      obtain ⟨h1, h2, h3, h4⟩ := hstep
      have hchTime : (envForCall env c).chTime = c.time := rfl
      have hmax : maxRIRFTime (envForCall env c) = maxRIRFTime env := rfl
      rw [hchTime] at h2
      rw [hchTime, hmax] at h4
      have ihres := ih st1 st2 hchain.tail ?hc h3 hok
      case hc =>
        intro c2 hc2 x hx
        have hxle : x ≤ st1.timeHistory.headD 0 := chain'_desc_le_head _ h3 x hx
        rw [h2] at hxle
        exact lt_of_le_of_lt hxle ((List.chain'_cons'.mp hchain).1 c2 hc2)
      refine ⟨fun h => absurd h (List.cons_ne_nil c rest), fun _ => ?_⟩
      by_cases hrest : rest = []
      · subst hrest
        have hst2 : st2 = st1 := ihres.1 rfl
        subst hst2
        refine ⟨h1, ?_, h3, ?_⟩
        · rw [h2]
          rfl
        · intro x hx
          rw [h2]
          exact h4 x hx
      · obtain ⟨g1, g2, g3, g4⟩ := ihres.2 hrest
        refine ⟨g1, ?_, g3, g4⟩
        rw [List.map_cons, List.getLastD_cons, g2]
        exact getLastD_of_ne_nil _ 0 c.time (by simpa using hrest)

/-- C6: after any nonempty sequence of `ComputeForceRadiationDampingConv`
calls at strictly increasing times starting from an empty history, the
retained history is never empty, its front is the latest call time, and
every retained sample except possibly the single oldest padding sample has
time at least `latest_time - max_RIRF_time` — at most one retained sample
lies below that threshold. -/
theorem history_pruning_invariant (env : HydroEnv) (calls : List ConvCall)
    (st st2 : HydroState) (hstart : st.timeHistory = [])
    (hinc : List.Chain' (fun c c2 => c.time < c2.time) calls)
    (hne : calls ≠ [])
    (hok : runConvCalls env calls st = .ok st2) :
    st2.timeHistory ≠ [] ∧
    st2.timeHistory.headD 0 = (calls.map ConvCall.time).getLastD 0 ∧
    ∀ x ∈ st2.timeHistory.dropLast,
      st2.timeHistory.headD 0 - maxRIRFTime env ≤ x := by
  have h := runConvCalls_inv env calls st st2 hinc
    (by
      intro c hc x hx
      rw [hstart] at hx
      cases hx)
    (by rw [hstart]; exact List.chain'_nil) hok
  obtain ⟨a, b, -, d⟩ := h.2 hne
  exact ⟨a, b, d⟩

/-- C6 witness: four calls at times 0, 1/2, 1, 2 against the RIRF window of
length 1 retain `[2, 1, 1/2]`: nonempty, headed by the latest time 2, with
only the padding sample 1/2 below `2 - 1`. -/
theorem history_pruning_invariant_witness :
    runOutC6.timeHistory ≠ [] ∧
    runOutC6.timeHistory.headD 0 = (callsC6.map ConvCall.time).getLastD 0 ∧
    ∀ x ∈ runOutC6.timeHistory.dropLast,
      runOutC6.timeHistory.headD 0 - maxRIRFTime envEx ≤ x :=
  history_pruning_invariant envEx callsC6 stEx runOutC6 rfl
    (List.chain'_cons.mpr ⟨by show (0:ℚ) < 1/2; norm_num,
      List.chain'_cons.mpr ⟨by show (1:ℚ)/2 < 1; norm_num,
        List.chain'_cons.mpr ⟨by show (1:ℚ) < 2; norm_num,
          List.chain'_singleton _⟩⟩⟩)
    (by simp [callsC6])
    (by with_unfolding_all rfl)
